import Mathlib

/-!
Shallow embedding of the webhook-ingestion service (app/main.py, app/models.py,
app/metrics.py, app/config.py) in Lean 4.

Modelling conventions:
* Python strings are Lean `String`s (payloads are modelled over ASCII, where
  Python's Unicode-aware regex class for digits and its case folding agree with
  the ASCII notions used here).
* The SQLite table of app/models.py is a `List Message` in insertion order; the
  primary-key constraint on message_id is modelled by the duplicate check in
  the webhook step, mirroring the IntegrityError branch of app/main.py.
* HMAC-SHA256 (Python stdlib, external to the repository) is a parameter
  `hmacHex : String → String → String`; the handler's control flow does not
  depend on its internals.
* JSON parsing (stdlib) is a parameter producing `Option MessageRequest`.
* Latencies are `Rat` (the code uses floats; only order against the constant
  bucket bounds 100 and 500 matters for the claims).
-/

namespace App

/-- Persisted row, from app/models.py (table "messages"). -/
structure Message where
  message_id : String
  from_msisdn : String
  to_msisdn : String
  ts : String
  text : Option String
  created_at : String
deriving DecidableEq, Repr

/-- Parsed webhook payload, from class MessageRequest in app/main.py. -/
structure MessageRequest where
  message_id : String
  from_field : String
  «to» : String
  ts : String
  text : Option String
deriving DecidableEq, Repr

/-- Response item, from class MessageResponse in app/main.py. -/
structure MessageResponse where
  message_id : String
  from_msisdn : String
  to_msisdn : String
  ts : String
  text : Option String
deriving DecidableEq, Repr

/-- Response of GET /messages, from class MessagesListResponse in app/main.py. -/
structure MessagesListResponse where
  data : List MessageResponse
  total : Nat
  limit : Int
  offset : Int
deriving DecidableEq, Repr

/-- One entry of messages_per_sender, from class SenderStat in app/main.py. -/
structure SenderStat where
  from_msisdn : String
  count : Nat
deriving DecidableEq, Repr

/-- Response of GET /stats, from class StatsResponse in app/main.py. -/
structure StatsResponse where
  total_messages : Nat
  senders_count : Nat
  messages_per_sender : List SenderStat
  first_message_ts : Option String
  last_message_ts : Option String
deriving DecidableEq, Repr

/-! Python string semantics used by the validators. -/

/-- ASCII whitespace stripped by Python str.strip(). -/
def pyIsSpace (c : Char) : Bool :=
  c == ' ' || c == '\t' || c == '\n' || c == '\x0d' || c == '\x0b' || c == '\x0c'

/-- Python str.strip(): drop whitespace from both ends. -/
def pyStrip (s : String) : String :=
  String.mk (((s.data.dropWhile pyIsSpace).reverse.dropWhile pyIsSpace).reverse)

/-- Core of the pattern for from and to fields: a plus sign followed by one or
more digits, over a whole character list. -/
def plusDigitsCore (cs : List Char) : Bool :=
  match cs with
  | '+' :: rest => !rest.isEmpty && rest.all (fun c => c.isDigit)
  | _ => false

/-- Core of the exact timestamp pattern of the ts validator: digits and literal
separators in the shape 0000-00-00T00:00:00Z, over a whole character list. -/
def tsCore (cs : List Char) : Bool :=
  match cs with
  | [y1, y2, y3, y4, '-', m1, m2, '-', d1, d2, 'T',
     h1, h2, ':', n1, n2, ':', s1, s2, 'Z'] =>
      [y1, y2, y3, y4, m1, m2, d1, d2, h1, h2, n1, n2, s1, s2].all
        (fun c => c.isDigit)
  | _ => false

/-- Python re.match with a dollar-anchored pattern: the dollar anchor matches at
the end of the string, or just before a newline that ends the string. -/
def pyDollarMatch (core : List Char → Bool) (s : String) : Bool :=
  core s.data || (s.data.getLast? == some '\n' && core s.data.dropLast)

/-- The from and to check of app/main.py under Python re.match semantics. -/
def reMatchE164 (s : String) : Bool := pyDollarMatch plusDigitsCore s

/-- The ts check of app/main.py under Python re.match semantics. -/
def reMatchTs (s : String) : Bool := pyDollarMatch tsCore s

/-! Validators of class MessageRequest (app/main.py lines 49-77), in pydantic
field order; the first failing validator determines the error. -/

/-- Validator message_id_not_empty of app/main.py. -/
def message_id_not_empty (v : String) : Except String String :=
  if v = "" ∨ pyStrip v = "" then .error "message_id must not be empty" else .ok v

/-- Validator from_is_e164 of app/main.py. -/
def from_is_e164 (v : String) : Except String String :=
  if !reMatchE164 v then .error "from must be in E.164 format (e.g. +919876543210)"
  else .ok v

/-- Validator to_is_e164 of app/main.py. -/
def to_is_e164 (v : String) : Except String String :=
  if !reMatchE164 v then .error "to must be in E.164 format (e.g. +14155550100)"
  else .ok v

/-- Validator ts_is_iso8601_utc of app/main.py. -/
def ts_is_iso8601_utc (v : String) : Except String String :=
  if !reMatchTs v then .error "ts must be ISO-8601 UTC (e.g. 2025-01-15T10:00:00Z)"
  else .ok v

/-- Validator text_max_length of app/main.py: the condition is guarded by
Python truthiness of the optional value. -/
def text_max_length (v : Option String) : Except String (Option String) :=
  match v with
  | some t => if t ≠ "" ∧ t.length > 4096
              then .error "text must not exceed 4096 characters" else .ok v
  | none => .ok v

/-- Construction of a MessageRequest, running all field validators in
declaration order as pydantic does. -/
def validateMessageRequest (m : MessageRequest) : Except String MessageRequest := do
  let mid ← message_id_not_empty m.message_id
  let f ← from_is_e164 m.from_field
  let t ← to_is_e164 m.to
  let ts ← ts_is_iso8601_utc m.ts
  let tx ← text_max_length m.text
  .ok { message_id := mid, from_field := f, «to» := t, ts := ts, text := tx }

/-! Metrics collector, from app/metrics.py. Python dicts preserve insertion
order, so the counters are association lists in insertion order. -/

/-- In-memory metrics state, from class MetricsCollector in app/metrics.py. -/
structure MetricsCollector where
  http_requests_total : List (String × Nat)
  webhook_requests_total : List (String × Nat)
  request_latencies : List Rat
deriving DecidableEq, Repr

/-- Fresh collector, from MetricsCollector.__init__. -/
def MetricsCollector.empty : MetricsCollector := ⟨[], [], []⟩

/-- defaultdict increment: bump the key's counter, inserting it at the end on
first use, as a Python dict does. -/
def incrKey : List (String × Nat) → String → List (String × Nat)
  | [], k => [(k, 1)]
  | (k0, v) :: rest, k =>
      if k0 = k then (k0, v + 1) :: rest else (k0, v) :: incrKey rest k

/-- The label string built by record_http_request (a small JSON object). -/
def httpKey (path : String) (status : Nat) : String :=
  "\x7b\"path\":\"" ++ path ++ "\",\"status\":" ++ toString status ++ "\x7d"

/-- The label string built by record_webhook_result. -/
def webhookResultKey (result : String) : String :=
  "\x7b\"result\":\"" ++ result ++ "\"\x7d"

/-- MetricsCollector.record_http_request of app/metrics.py. -/
def record_http_request (c : MetricsCollector) (path : String) (status : Nat) :
    MetricsCollector :=
  { c with http_requests_total := incrKey c.http_requests_total (httpKey path status) }

/-- MetricsCollector.record_webhook_result of app/metrics.py. -/
def record_webhook_result (c : MetricsCollector) (result : String) :
    MetricsCollector :=
  { c with webhook_requests_total :=
      incrKey c.webhook_requests_total (webhookResultKey result) }

/-- MetricsCollector.record_latency of app/metrics.py. -/
def record_latency (c : MetricsCollector) (latency_ms : Rat) : MetricsCollector :=
  { c with request_latencies := c.request_latencies ++ [latency_ms] }

/-- The lines built by MetricsCollector.export_prometheus of app/metrics.py,
before joining with newlines. -/
def exportLines (c : MetricsCollector) : List String :=
  c.http_requests_total.map
    (fun kv => "http_requests_total" ++ kv.1 ++ " " ++ toString kv.2)
  ++ c.webhook_requests_total.map
    (fun kv => "webhook_requests_total" ++ kv.1 ++ " " ++ toString kv.2)
  ++ (if c.request_latencies.isEmpty then [] else
      let latencies := c.request_latencies.insertionSort (fun a b => a ≤ b)
      ["request_latency_ms_count " ++ toString latencies.length,
       "request_latency_ms_bucket\x7ble=\"100\"\x7d " ++
         toString (latencies.countP (fun l => l ≤ 100)),
       "request_latency_ms_bucket\x7ble=\"500\"\x7d " ++
         toString (latencies.countP (fun l => l ≤ 500)),
       "request_latency_ms_bucket\x7ble=\"+Inf\"\x7d " ++ toString latencies.length])

/-- MetricsCollector.export_prometheus of app/metrics.py. -/
def export_prometheus (c : MetricsCollector) : String :=
  String.intercalate "\n" (exportLines c)

/-! String ordering. SQLite compares TEXT values by memcmp of their UTF-8
bytes; over ASCII that is exactly lexicographic order on the character lists,
which is what the order-by and the since filter below use. (Lean's built-in
String order is the same order but its Decidable instance does not reduce in
the kernel, so an executable comparison is defined here.) -/

/-- Lexicographic less-or-equal on character lists. -/
def charListLe : List Char → List Char → Bool
  | [], _ => true
  | _ :: _, [] => false
  | a :: as, b :: bs => a < b || (a == b && charListLe as bs)

/-- Lexicographic less-or-equal on strings (SQLite TEXT comparison). -/
def strLe (a b : String) : Bool := charListLe a.data b.data

/-! SQL LIKE / ilike semantics, for the q filter of GET /messages.
Message.text.ilike(f"%{q}%") lower-cases both sides (ASCII, as SQLite does)
and matches the LIKE pattern, in which a percent sign matches any sequence of
characters and an underscore matches any single character. NULL text never
matches. -/

/-- SQL LIKE pattern matching over character lists: percent matches any
sequence (some suffix of the rest must match the remaining pattern),
underscore any single character, all else literally. -/
def likeMatch : List Char → List Char → Bool
  | [], s => s.isEmpty
  | '%' :: ps, s => s.tails.any (fun t => likeMatch ps t)
  | '_' :: ps, s =>
      match s with
      | [] => false
      | _ :: cs => likeMatch ps cs
  | p :: ps, s =>
      match s with
      | [] => false
      | c :: cs => p == c && likeMatch ps cs

/-- The q filter of get_messages: Message.text.ilike(f"%{q}%"). -/
def textIlike (text : Option String) (q : String) : Bool :=
  match text with
  | none => false
  | some t => likeMatch (('%' :: q.data ++ ['%']).map Char.toLower)
      (t.data.map Char.toLower)

/-- Python truthiness of an optional string: None and the empty string are
falsy. Used for the if-guards on filters and on the X-Signature header. -/
def pyTruthyOpt : Option String → Bool
  | none => false
  | some s => !(s == "")

/-! GET /messages, from get_messages in app/main.py. The database is the list
of rows in insertion order; SQL LIMIT n OFFSET m drops m rows then takes n. -/

/-- The response projection of a stored row (MessageResponse.from_orm). -/
def toResponse (m : Message) : MessageResponse :=
  { message_id := m.message_id, from_msisdn := m.from_msisdn,
    to_msisdn := m.to_msisdn, ts := m.ts, text := m.text }

/-- The filter chain of get_messages: each filter applies exactly when its
argument is truthy. -/
def appliedFilters (from_ since q : Option String) (db : List Message) :
    List Message :=
  let query := db
  let query := if pyTruthyOpt from_
    then query.filter (fun m => m.from_msisdn == from_.getD "") else query
  let query := if pyTruthyOpt since
    then query.filter (fun m => strLe (since.getD "") m.ts) else query
  let query := if pyTruthyOpt q
    then query.filter (fun m => textIlike m.text (q.getD "")) else query
  query

/-- Sort key of the listing: ORDER BY ts ASC, message_id ASC. -/
def msgLe (a b : Message) : Bool :=
  if a.ts = b.ts then strLe a.message_id b.message_id else strLe a.ts b.ts

/-- The listing order as a decidable relation, for sorting. -/
def msgLeP (a b : Message) : Prop := msgLe a b = true

instance : DecidableRel msgLeP :=
  fun a b => inferInstanceAs (Decidable (msgLe a b = true))

/-- Handler get_messages of app/main.py (pure read of the store; the metrics
and log emissions of the handler touch neither the store nor the response). -/
def get_messages (limit offset : Int) (from_ since q : Option String)
    (db : List Message) : MessagesListResponse :=
  let limit := if limit < 1 ∨ limit > 100 then 50 else limit
  let offset := if offset < 0 then 0 else offset
  let query := appliedFilters from_ since q db
  let total := query.length
  let messages := ((query.insertionSort msgLeP).drop offset.toNat).take limit.toNat
  { data := messages.map toResponse,
    total := total, limit := limit, offset := offset }

/-! GET /stats, from get_stats in app/main.py. -/

/-- Order of the top-senders listing: ORDER BY count DESC. The SQL carries no
tie-break clause; the model determinises ties by ascending sender string,
matching the deterministic tie-break the interface promises. -/
def senderOrd (a b : String × Nat) : Bool :=
  if a.2 = b.2 then strLe a.1 b.1 else b.2 < a.2

/-- The top-senders order as a decidable relation, for sorting. -/
def senderOrdP (a b : String × Nat) : Prop := senderOrd a b = true

instance : DecidableRel senderOrdP :=
  fun a b => inferInstanceAs (Decidable (senderOrd a b = true))

/-- The GROUP BY from_msisdn / ORDER BY count DESC / LIMIT 10 query of
get_stats: one (sender, count) group per distinct sender. -/
def topSenders (db : List Message) : List (String × Nat) :=
  let groups := ((db.map (fun m => m.from_msisdn)).dedup).map
    (fun s => (s, (db.filter (fun m => m.from_msisdn == s)).length))
  (groups.insertionSort senderOrdP).take 10

/-- SQL MIN over a string column: none on the empty table. -/
def sqlMinStr : List String → Option String
  | [] => none
  | t :: ts =>
      match sqlMinStr ts with
      | none => some t
      | some m => some (if strLe t m then t else m)

/-- SQL MAX over a string column: none on the empty table. -/
def sqlMaxStr : List String → Option String
  | [] => none
  | t :: ts =>
      match sqlMaxStr ts with
      | none => some t
      | some m => some (if strLe m t then t else m)

/-- Handler get_stats of app/main.py (pure read of the store). -/
def get_stats (db : List Message) : StatsResponse :=
  { total_messages := db.length,
    senders_count := (db.map (fun m => m.from_msisdn)).dedup.length,
    messages_per_sender := (topSenders db).map
      (fun p => { from_msisdn := p.1, count := p.2 }),
    first_message_ts := sqlMinStr (db.map (fun m => m.ts)),
    last_message_ts := sqlMaxStr (db.map (fun m => m.ts)) }

/-! POST /webhook, from webhook in app/main.py. -/

/-- Response content dicts built by the handler. -/
inductive RespBody where
  | detail (s : String)
  | statusOk
deriving DecidableEq, Repr

/-- Outcome of one webhook call: an HTTP response, or an exception escaping
the handler uncaught. -/
inductive WebhookOutcome where
  | response (status : Nat) (body : RespBody)
  | uncaught (error : String)
deriving DecidableEq, Repr

/-- Shared state touched by the handler: the messages table and the
process-wide metrics collector. -/
structure AppState where
  db : List Message
  metrics : MetricsCollector
deriving DecidableEq, Repr

/-- Per-request inputs of the handler: the X-Signature header (none when the
header is absent), the raw-body read outcome (none when reading raises), and
whether the store raises an unexpected fault at commit time. -/
structure WebhookInput where
  xSignature : Option String
  bodyResult : Option String
  dbFault : Bool
deriving DecidableEq, Repr

/-- The three metric emissions every terminal path after ReadBody makes:
record_http_request, record_webhook_result, record_latency, in the order the
handler calls them. -/
def recordOutcome (c : MetricsCollector) (status : Nat) (result : String)
    (latencyMs : Rat) : MetricsCollector :=
  record_latency (record_webhook_result (record_http_request c "/webhook" status) result) latencyMs

/-- The row built at step 4 of the handler. -/
def mkRow (msg : MessageRequest) (nowIso : String) : Message :=
  { message_id := msg.message_id, from_msisdn := msg.from_field,
    to_msisdn := msg.to, ts := msg.ts, text := msg.text,
    created_at := nowIso ++ "Z" }

/-- Handler webhook of app/main.py. hmacHex is HMAC-SHA256 hex encoding
(stdlib, external); parseJson is request.json() plus keyword construction of
MessageRequest (none on malformed JSON or missing fields); latencyMs is the
measured wall-clock latency. -/
def webhook (hmacHex : String → String → String)
    (parseJson : String → Option MessageRequest)
    (webhookSecret : Option String) (nowIso : String) (latencyMs : Rat)
    (inp : WebhookInput) (st : AppState) : WebhookOutcome × AppState :=
  match inp.bodyResult with
  | none =>
      (.response 400 (.detail "Could not read request body"),
       { st with metrics := record_http_request st.metrics "/webhook" 400 })
  | some raw_body =>
      if !pyTruthyOpt inp.xSignature then
        (.response 401 (.detail "invalid signature"),
         { st with metrics :=
            recordOutcome st.metrics 401 "invalid_signature" latencyMs })
      else
        match webhookSecret with
        | none =>
            (.uncaught "AttributeError: NoneType object has no attribute encode",
             st)
        | some secret =>
            let expected := hmacHex secret raw_body
            let x_signature := inp.xSignature.getD ""
            if ¬(x_signature = expected) then
              (.response 401 (.detail "invalid signature"),
               { st with metrics :=
                  recordOutcome st.metrics 401 "invalid_signature" latencyMs })
            else
              match parseJson raw_body with
              | none =>
                  (.response 422 (.detail "Expecting value"),
                   { st with metrics :=
                      recordOutcome st.metrics 422 "validation_error" latencyMs })
              | some data =>
                  match validateMessageRequest data with
                  | .error e =>
                      (.response 422 (.detail e),
                       { st with metrics :=
                          recordOutcome st.metrics 422 "validation_error" latencyMs })
                  | .ok msg =>
                      if inp.dbFault then
                        (.response 500 (.detail "Internal server error"),
                         { st with metrics :=
                            recordOutcome st.metrics 500 "error" latencyMs })
                      else if st.db.any
                          (fun r => r.message_id == msg.message_id) then
                        (.response 200 .statusOk,
                         { st with metrics :=
                            recordOutcome st.metrics 200 "duplicate" latencyMs })
                      else
                        (.response 200 .statusOk,
                         { db := st.db ++ [mkRow msg nowIso],
                           metrics :=
                            recordOutcome st.metrics 200 "created" latencyMs })

/-! Auxiliary definitions used by the theorems. -/

/-- Strict lexicographic order on character lists. -/
def charListLt : List Char → List Char → Bool
  | [], [] => false
  | [], _ :: _ => true
  | _ :: _, [] => false
  | a :: as, b :: bs => a < b || (a == b && charListLt as bs)

/-- Strict lexicographic order on strings. -/
def strLt (a b : String) : Bool := charListLt a.data b.data

/-- Sum of all counter values of one metrics dict. -/
def counterTotal (l : List (String × Nat)) : Nat := (l.map (fun kv => kv.2)).sum

/-- Counter value at a key, 0 when absent. -/
def lookupCount : List (String × Nat) → String → Nat
  | [], _ => 0
  | (k0, v) :: rest, k => if k0 = k then v else lookupCount rest k

/-- The conjunction of the three optional list filters, each active exactly
when its argument is truthy. -/
def filterPred (from_ since q : Option String) (m : Message) : Bool :=
  (if pyTruthyOpt from_ then m.from_msisdn == from_.getD "" else true) &&
  (if pyTruthyOpt since then strLe (since.getD "") m.ts else true) &&
  (if pyTruthyOpt q then textIlike m.text (q.getD "") else true)

/-- Modelled from the spec: the claim-side matcher for the from and to
pattern under standard anchoring semantics, where the dollar anchor means end
of string, so the language is exactly a plus sign followed by one or more
digits. -/
def specE164Match (s : String) : Bool := plusDigitsCore s.data

/-- Modelled from the spec: the claim-side q-filter semantics,
case-insensitive substring containment of q in the text. -/
def specCiSubstring (t q : String) : Bool :=
  let tl := t.data.map Char.toLower
  let ql := q.data.map Char.toLower
  (List.range (tl.length + 1)).any (fun i => (tl.drop i).take ql.length == ql)

/-- Python re.match acceptance of the dollar-anchored from and to pattern,
spelled structurally: either the whole string is in the pattern's language, or
the string with one trailing newline removed is. -/
def pyAcceptE164 (s : String) : Prop :=
  specE164Match s = true ∨ ∃ cs, s.data = cs ++ ['\n'] ∧ plusDigitsCore cs = true

/-- Python re.match acceptance of the dollar-anchored ts pattern, spelled
structurally. -/
def pyAcceptTs (s : String) : Prop :=
  tsCore s.data = true ∨ ∃ cs, s.data = cs ++ ['\n'] ∧ tsCore cs = true

/-! Order lemmas for the lexicographic comparisons. -/

theorem charListLe_refl (as : List Char) : charListLe as as = true := by
  induction as with
  | nil => rfl
  | cons a as ih => simp [charListLe, ih]

theorem charListLe_total (as bs : List Char) :
    (charListLe as bs || charListLe bs as) = true := by
  induction as generalizing bs with
  | nil => simp [charListLe]
  | cons a as ih =>
    cases bs with
    | nil => simp [charListLe]
    | cons b bs =>
      simp only [charListLe, Bool.or_eq_true, Bool.and_eq_true, beq_iff_eq,
        decide_eq_true_eq]
      rcases lt_trichotomy a b with h | h | h
      · exact Or.inl (Or.inl h)
      · subst h
        have h0 := ih bs
        rw [Bool.or_eq_true] at h0
        rcases h0 with h1 | h1
        · exact Or.inl (Or.inr ⟨rfl, h1⟩)
        · exact Or.inr (Or.inr ⟨rfl, h1⟩)
      · exact Or.inr (Or.inl h)

theorem charListLe_trans {as bs cs : List Char}
    (h1 : charListLe as bs = true) (h2 : charListLe bs cs = true) :
    charListLe as cs = true := by
  induction as generalizing bs cs with
  | nil => simp [charListLe]
  | cons a as ih =>
    cases bs with
    | nil => simp [charListLe] at h1
    | cons b bs =>
      cases cs with
      | nil => simp [charListLe] at h2
      | cons c cs =>
        simp only [charListLe, Bool.or_eq_true, Bool.and_eq_true, beq_iff_eq,
          decide_eq_true_eq] at h1 h2 ⊢
        rcases h1 with h1 | ⟨hab, h1⟩
        · rcases h2 with h2 | ⟨hbc, h2⟩
          · exact Or.inl (lt_trans h1 h2)
          · exact Or.inl (hbc ▸ h1)
        · subst hab
          rcases h2 with h2 | ⟨hbc, h2⟩
          · exact Or.inl h2
          · exact Or.inr ⟨hbc, ih h1 h2⟩

theorem charListLe_antisymm {as bs : List Char}
    (h1 : charListLe as bs = true) (h2 : charListLe bs as = true) : as = bs := by
  induction as generalizing bs with
  | nil =>
    cases bs with
    | nil => rfl
    | cons b bs => simp [charListLe] at h2
  | cons a as ih =>
    cases bs with
    | nil => simp [charListLe] at h1
    | cons b bs =>
      simp only [charListLe, Bool.or_eq_true, Bool.and_eq_true, beq_iff_eq,
        decide_eq_true_eq] at h1 h2
      rcases h1 with h1 | ⟨hab, h1⟩
      · rcases h2 with h2 | ⟨hba, h2⟩
        · exact absurd h2 (lt_asymm h1)
        · exact absurd (hba ▸ h1) (lt_irrefl b)
      · rcases h2 with h2 | ⟨hba, h2⟩
        · exact absurd (hab ▸ h2) (lt_irrefl b)
        · rw [hab, ih h1 h2]

theorem charListLt_irrefl (as : List Char) : charListLt as as = false := by
  induction as with
  | nil => rfl
  | cons a as ih => simp [charListLt, ih]

theorem charListLe_iff_lt_or_eq (as bs : List Char) :
    charListLe as bs = true ↔ (charListLt as bs = true ∨ as = bs) := by
  induction as generalizing bs with
  | nil =>
    cases bs with
    | nil => simp [charListLe, charListLt]
    | cons b bs => simp [charListLe, charListLt]
  | cons a as ih =>
    cases bs with
    | nil => simp [charListLe, charListLt]
    | cons b bs =>
      simp only [charListLe, charListLt, Bool.or_eq_true, Bool.and_eq_true,
        beq_iff_eq, decide_eq_true_eq, List.cons.injEq]
      constructor
      · rintro (h | ⟨hab, h⟩)
        · exact Or.inl (Or.inl h)
        · rcases (ih bs).mp h with h1 | h1
          · exact Or.inl (Or.inr ⟨hab, h1⟩)
          · exact Or.inr ⟨hab, h1⟩
      · rintro ((h | ⟨hab, h⟩) | ⟨hab, h⟩)
        · exact Or.inl h
        · exact Or.inr ⟨hab, (ih bs).mpr (Or.inl h)⟩
        · exact Or.inr ⟨hab, (ih bs).mpr (Or.inr h)⟩

theorem strLe_refl (a : String) : strLe a a = true := charListLe_refl a.data

theorem strLe_total (a b : String) : (strLe a b || strLe b a) = true :=
  charListLe_total a.data b.data

theorem strLe_trans {a b c : String} (h1 : strLe a b = true)
    (h2 : strLe b c = true) : strLe a c = true := charListLe_trans h1 h2

theorem strLe_antisymm {a b : String} (h1 : strLe a b = true)
    (h2 : strLe b a = true) : a = b := by
  cases a; cases b
  exact congrArg String.mk (charListLe_antisymm h1 h2)

theorem strLt_irrefl (a : String) : strLt a a = false := charListLt_irrefl a.data

theorem strLe_iff_lt_or_eq (a b : String) :
    strLe a b = true ↔ (strLt a b = true ∨ a = b) := by
  constructor
  · intro h
    rcases (charListLe_iff_lt_or_eq a.data b.data).mp h with h1 | h1
    · exact Or.inl h1
    · refine Or.inr ?_
      cases a; cases b
      exact congrArg String.mk h1
  · rintro (h | h)
    · exact (charListLe_iff_lt_or_eq a.data b.data).mpr (Or.inl h)
    · exact (charListLe_iff_lt_or_eq a.data b.data).mpr
        (Or.inr (congrArg String.data h))

theorem strLe_of_not_strLe {a b : String} (h : ¬ strLe a b = true) :
    strLe b a = true := by
  have h0 := strLe_total a b
  rw [Bool.or_eq_true] at h0
  rcases h0 with h1 | h1
  · exact absurd h1 h
  · exact h1

/-! The listing order and the top-senders order are transitive and total, as
List.sorted_insertionSort requires. -/

theorem msgLe_trans (a b c : Message) (hab : msgLe a b = true)
    (hbc : msgLe b c = true) : msgLe a c = true := by
  unfold msgLe at hab hbc ⊢
  by_cases h1 : a.ts = b.ts
  · by_cases h2 : b.ts = c.ts
    · rw [if_pos h1] at hab
      rw [if_pos h2] at hbc
      rw [if_pos (h1.trans h2)]
      exact strLe_trans hab hbc
    · rw [if_neg (h1 ▸ h2)]
      rw [if_neg h2] at hbc
      exact h1 ▸ hbc
  · by_cases h2 : b.ts = c.ts
    · rw [if_neg (fun hc => h1 (hc.trans h2.symm))]
      rw [if_neg h1] at hab
      exact h2 ▸ hab
    · rw [if_neg h1] at hab
      rw [if_neg h2] at hbc
      by_cases h3 : a.ts = c.ts
      · exact absurd (strLe_antisymm hab (h3 ▸ hbc)) h1
      · rw [if_neg h3]
        exact strLe_trans hab hbc

theorem msgLe_total (a b : Message) : (msgLe a b || msgLe b a) = true := by
  unfold msgLe
  by_cases h : a.ts = b.ts
  · rw [if_pos h, if_pos h.symm]
    exact strLe_total _ _
  · rw [if_neg h, if_neg (fun hc => h hc.symm)]
    exact strLe_total _ _

theorem msgLe_iff (a b : Message) :
    msgLe a b = true ↔
      (strLt a.ts b.ts = true ∨ (a.ts = b.ts ∧ strLe a.message_id b.message_id = true)) := by
  unfold msgLe
  by_cases h : a.ts = b.ts
  · rw [if_pos h]
    constructor
    · intro hle; exact Or.inr ⟨h, hle⟩
    · rintro (hlt | ⟨_, hle⟩)
      · rw [h] at hlt; simp [strLt_irrefl] at hlt
      · exact hle
  · rw [if_neg h]
    constructor
    · intro hle
      rcases (strLe_iff_lt_or_eq _ _).mp hle with h1 | h1
      · exact Or.inl h1
      · exact absurd h1 h
    · rintro (hlt | ⟨heq, _⟩)
      · exact (strLe_iff_lt_or_eq _ _).mpr (Or.inl hlt)
      · exact absurd heq h

theorem senderOrd_trans (a b c : String × Nat) (hab : senderOrd a b = true)
    (hbc : senderOrd b c = true) : senderOrd a c = true := by
  unfold senderOrd at hab hbc ⊢
  by_cases h1 : a.2 = b.2
  · by_cases h2 : b.2 = c.2
    · rw [if_pos h1] at hab
      rw [if_pos h2] at hbc
      rw [if_pos (h1.trans h2)]
      exact strLe_trans hab hbc
    · rw [if_neg (h1 ▸ h2)]
      rw [if_neg h2] at hbc
      exact h1 ▸ hbc
  · by_cases h2 : b.2 = c.2
    · rw [if_neg (fun hc => h1 (hc.trans h2.symm))]
      rw [if_neg h1] at hab
      exact h2 ▸ hab
    · rw [if_neg h1] at hab
      rw [if_neg h2] at hbc
      simp only [decide_eq_true_eq] at hab hbc
      by_cases h3 : a.2 = c.2
      · exact absurd (h3 ▸ hbc) (lt_asymm hab)
      · rw [if_neg h3]
        simp only [decide_eq_true_eq]
        exact lt_trans hbc hab

theorem senderOrd_total (a b : String × Nat) :
    (senderOrd a b || senderOrd b a) = true := by
  unfold senderOrd
  by_cases h : a.2 = b.2
  · rw [if_pos h, if_pos h.symm]
    exact strLe_total _ _
  · rw [if_neg h, if_neg (fun hc => h hc.symm)]
    rcases lt_or_gt_of_ne h with h1 | h1
    · simp [h1]
    · simp [h1]

theorem senderOrd_iff (a b : String × Nat) :
    senderOrd a b = true ↔ (b.2 < a.2 ∨ (a.2 = b.2 ∧ strLe a.1 b.1 = true)) := by
  unfold senderOrd
  by_cases h : a.2 = b.2
  · rw [if_pos h]
    constructor
    · intro hle; exact Or.inr ⟨h, hle⟩
    · rintro (hlt | ⟨_, hle⟩)
      · rw [h] at hlt; exact absurd hlt (lt_irrefl _)
      · exact hle
  · rw [if_neg h]
    simp only [decide_eq_true_eq]
    constructor
    · intro hlt; exact Or.inl hlt
    · rintro (hlt | ⟨heq, _⟩)
      · exact hlt
      · exact absurd heq h

instance : IsTrans Message msgLeP := ⟨fun a b c => msgLe_trans a b c⟩

instance : IsTotal Message msgLeP :=
  ⟨fun a b => by
    have h0 := msgLe_total a b
    rw [Bool.or_eq_true] at h0
    exact h0⟩

instance : IsTrans (String × Nat) senderOrdP := ⟨fun a b c => senderOrd_trans a b c⟩

instance : IsTotal (String × Nat) senderOrdP :=
  ⟨fun a b => by
    have h0 := senderOrd_total a b
    rw [Bool.or_eq_true] at h0
    exact h0⟩

/-! Counter bookkeeping lemmas. -/

theorem counterTotal_incrKey (l : List (String × Nat)) (k : String) :
    counterTotal (incrKey l k) = counterTotal l + 1 := by
  induction l with
  | nil => simp [incrKey, counterTotal]
  | cons kv rest ih =>
    obtain ⟨k0, v⟩ := kv
    by_cases h : k0 = k
    · simp [incrKey, h, counterTotal]
      omega
    · simp only [incrKey, if_neg h]
      simp [counterTotal] at ih ⊢
      omega

theorem lookupCount_incrKey_self (l : List (String × Nat)) (k : String) :
    lookupCount (incrKey l k) k = lookupCount l k + 1 := by
  induction l with
  | nil => simp [incrKey, lookupCount]
  | cons kv rest ih =>
    obtain ⟨k0, v⟩ := kv
    by_cases h : k0 = k
    · simp [incrKey, h, lookupCount]
    · simp [incrKey, h, lookupCount, ih]

/-! Lemmas on the SQL MIN and MAX aggregates. -/

theorem sqlMinStr_eq_none_iff (l : List String) : sqlMinStr l = none ↔ l = [] := by
  cases l with
  | nil => simp [sqlMinStr]
  | cons a as =>
    simp only [sqlMinStr]
    cases sqlMinStr as <;> simp

theorem sqlMaxStr_eq_none_iff (l : List String) : sqlMaxStr l = none ↔ l = [] := by
  cases l with
  | nil => simp [sqlMaxStr]
  | cons a as =>
    simp only [sqlMaxStr]
    cases sqlMaxStr as <;> simp

theorem sqlMinStr_spec {l : List String} {t : String} (h : sqlMinStr l = some t) :
    t ∈ l ∧ ∀ u ∈ l, strLe t u = true := by
  induction l generalizing t with
  | nil => simp [sqlMinStr] at h
  | cons a as ih =>
    simp only [sqlMinStr] at h
    cases hm : sqlMinStr as with
    | none =>
      rw [hm] at h
      obtain rfl : a = t := by simpa using h
      have : as = [] := (sqlMinStr_eq_none_iff as).mp hm
      subst this
      exact ⟨List.mem_cons_self _ _, by simp [strLe_refl]⟩
    | some m =>
      rw [hm] at h
      obtain ⟨hmem, hle⟩ := ih hm
      by_cases hcase : strLe a m = true
      · obtain rfl : a = t := by simpa [hcase] using h
        refine ⟨List.mem_cons_self _ _, ?_⟩
        intro u hu
        rcases List.mem_cons.mp hu with rfl | hu
        · exact strLe_refl _
        · exact strLe_trans hcase (hle u hu)
      · obtain rfl : m = t := by simpa [hcase] using h
        refine ⟨List.mem_cons_of_mem _ hmem, ?_⟩
        intro u hu
        rcases List.mem_cons.mp hu with rfl | hu
        · exact strLe_of_not_strLe hcase
        · exact hle u hu

theorem sqlMaxStr_spec {l : List String} {t : String} (h : sqlMaxStr l = some t) :
    t ∈ l ∧ ∀ u ∈ l, strLe u t = true := by
  induction l generalizing t with
  | nil => simp [sqlMaxStr] at h
  | cons a as ih =>
    simp only [sqlMaxStr] at h
    cases hm : sqlMaxStr as with
    | none =>
      rw [hm] at h
      obtain rfl : a = t := by simpa using h
      have : as = [] := (sqlMaxStr_eq_none_iff as).mp hm
      subst this
      exact ⟨List.mem_cons_self _ _, by simp [strLe_refl]⟩
    | some m =>
      rw [hm] at h
      obtain ⟨hmem, hle⟩ := ih hm
      by_cases hcase : strLe m a = true
      · obtain rfl : a = t := by simpa [hcase] using h
        refine ⟨List.mem_cons_self _ _, ?_⟩
        intro u hu
        rcases List.mem_cons.mp hu with rfl | hu
        · exact strLe_refl _
        · exact strLe_trans (hle u hu) hcase
      · obtain rfl : m = t := by simpa [hcase] using h
        refine ⟨List.mem_cons_of_mem _ hmem, ?_⟩
        intro u hu
        rcases List.mem_cons.mp hu with rfl | hu
        · exact strLe_of_not_strLe hcase
        · exact hle u hu

/-! Characterisation lemmas for the validators and the filter chain. -/

theorem pyDollarMatch_iff (core : List Char → Bool) (s : String) :
    pyDollarMatch core s = true ↔
      (core s.data = true ∨ ∃ cs, s.data = cs ++ ['\n'] ∧ core cs = true) := by
  unfold pyDollarMatch
  rw [Bool.or_eq_true]
  apply or_congr Iff.rfl
  rcases List.eq_nil_or_concat s.data with h | ⟨cs, c, h⟩
  · rw [h]
    simp
  · rw [h]
    simp only [List.concat_eq_append, List.getLast?_concat, List.dropLast_concat,
      Bool.and_eq_true, beq_iff_eq, Option.some.injEq]
    constructor
    · rintro ⟨rfl, hc⟩
      exact ⟨cs, rfl, hc⟩
    · rintro ⟨cs2, heq, hc⟩
      have h1 : c = '\n' := by
        have h0 := congrArg List.getLast? heq
        simpa [List.getLast?_concat] using h0
      subst h1
      have h2 : cs = cs2 := by
        have h0 := congrArg List.dropLast heq
        simpa [List.dropLast_concat] using h0
      rw [h2]
      exact ⟨rfl, hc⟩

theorem appliedFilters_eq (from_ since q : Option String) (db : List Message) :
    appliedFilters from_ since q db = db.filter (filterPred from_ since q) := by
  unfold appliedFilters filterPred
  cases hf : pyTruthyOpt from_ <;> cases hs : pyTruthyOpt since <;>
    cases hq : pyTruthyOpt q <;>
      simp [List.filter_filter, Bool.and_assoc] <;>
        exact List.filter_congr (fun a ha => by
          simp only [Bool.and_comm, Bool.and_assoc, Bool.and_left_comm])

/-- One truthiness-guarded filter is satisfied exactly when every supplied
non-empty value passes the underlying predicate: a filter whose value is
absent or the empty string constrains nothing. -/
theorem truthy_guard_iff (o : Option String) (p : String → Bool) :
    (if pyTruthyOpt o then p (o.getD "") else true) = true ↔
      (∀ s, o = some s → s ≠ "" → p s = true) := by
  cases o with
  | none => simp [pyTruthyOpt]
  | some s =>
    by_cases hs : s = ""
    · subst hs
      simp [pyTruthyOpt]
    · simp [pyTruthyOpt, hs]

theorem validate_ok_iff (m : MessageRequest) :
    validateMessageRequest m = .ok m ↔
      (¬(m.message_id = "" ∨ pyStrip m.message_id = "") ∧
       reMatchE164 m.from_field = true ∧ reMatchE164 m.to = true ∧
       reMatchTs m.ts = true ∧
       (∀ t, m.text = some t → ¬(t ≠ "" ∧ t.length > 4096))) := by
  obtain ⟨mid, mf, mt, mts, mtx⟩ := m
  simp only [validateMessageRequest, message_id_not_empty, from_is_e164,
    to_is_e164, ts_is_iso8601_utc, text_max_length, Bind.bind, Except.bind]
  cases mtx with
  | none => split_ifs <;> simp_all
  | some t0 =>
    by_cases ht : ¬t0 = "" ∧ 4096 < t0.length
    · simp only [if_pos ht]
      split_ifs <;> simp_all
    · simp only [if_neg ht]
      split_ifs <;> simp_all

theorem validate_error_of_not_ok {m : MessageRequest}
    (h : ¬ validateMessageRequest m = .ok m) :
    ∃ e, validateMessageRequest m = .error e := by
  cases hv : validateMessageRequest m with
  | error e => exact ⟨e, rfl⟩
  | ok v =>
    exfalso
    apply h
    obtain ⟨mid, mf, mt, mts, mtx⟩ := m
    simp only [validateMessageRequest, message_id_not_empty, from_is_e164,
      to_is_e164, ts_is_iso8601_utc, text_max_length, Bind.bind, Except.bind] at hv ⊢
    cases mtx with
    | none => split_ifs at hv <;> simp_all
    | some t0 =>
      by_cases ht : ¬t0 = "" ∧ 4096 < t0.length
      · simp only [if_pos ht] at hv
        split_ifs at hv <;> simp_all
      · simp only [if_neg ht] at hv ⊢
        split_ifs at hv <;> simp_all

/-- A string of n letters. -/
def repChar (n : Nat) : String := String.mk (List.replicate n 'a')

theorem repChar_length (n : Nat) : (repChar n).length = n := by
  simp [repChar, String.length]

/-- If the first four validators pass and the text is present, non-empty and
longer than 4096, validation fails with the text error. -/
theorem validate_text_too_long (m : MessageRequest) (t : String)
    (h1 : ¬(m.message_id = "" ∨ pyStrip m.message_id = ""))
    (h2 : reMatchE164 m.from_field = true) (h3 : reMatchE164 m.to = true)
    (h4 : reMatchTs m.ts = true) (htext : m.text = some t)
    (hne : t ≠ "") (hlen : t.length > 4096) :
    validateMessageRequest m = .error "text must not exceed 4096 characters" := by
  obtain ⟨mid, mf, mt, mts, mtx⟩ := m
  simp only at htext h1 h2 h3 h4
  subst htext
  simp only [validateMessageRequest, message_id_not_empty, from_is_e164,
    to_is_e164, ts_is_iso8601_utc, text_max_length, Bind.bind, Except.bind]
  rw [if_neg h1, if_neg (by simp [h2]), if_neg (by simp [h3]),
    if_neg (by simp [h4]), if_pos ⟨hne, hlen⟩]

/-! Concrete fixtures used by counterexamples and witnesses. -/

/-- A stored row whose text is the single letter a. -/
def exMsgText : Message :=
  ⟨"m1", "+1", "+2", "2025-01-15T10:00:00Z", some "a", "c"⟩

/-- A collector holding two latency observations and one counter of each
kind. -/
def exCollector : MetricsCollector :=
  ⟨[(httpKey "/webhook" 200, 2)], [(webhookResultKey "created", 2)], [50, 600]⟩

/-- A valid payload with message_id m1. -/
def reqM1 : MessageRequest := ⟨"m1", "+1", "+2", "2025-01-15T10:00:00Z", none⟩

/-- A stored row that already uses message_id m1, with different fields. -/
def rowM1 : Message := ⟨"m1", "+9", "+8", "2020-01-01T00:00:00Z", none, "c"⟩

/-- A payload whose from value carries a trailing newline. -/
def reqNl : MessageRequest :=
  ⟨"m1", "+123\n", "+14155550100", "2025-01-15T10:00:00Z", none⟩

/-- A payload whose from value lacks the leading plus sign. -/
def reqBadFrom : MessageRequest :=
  ⟨"m1", "919876543210", "+2", "2025-01-15T10:00:00Z", none⟩

/-- A valid payload whose text has exactly 4096 characters. -/
def req4096 : MessageRequest :=
  ⟨"m1", "+1", "+2", "2025-01-15T10:00:00Z", some (repChar 4096)⟩

/-- A payload whose text has 4097 characters. -/
def req4097 : MessageRequest :=
  ⟨"m1", "+1", "+2", "2025-01-15T10:00:00Z", some (repChar 4097)⟩

/-! Claim theorems. -/

/-- C4: a caller-supplied limit outside 1..100 resolves to the default 50, a
limit inside 1..100 is used as given, a negative offset resolves to 0, and the
response echoes the resolved limit and offset. -/
theorem get_messages_clamping (limit offset : Int) (from_ since q : Option String)
    (db : List Message) :
    (get_messages limit offset from_ since q db).limit
        = (if 1 ≤ limit ∧ limit ≤ 100 then limit else 50) ∧
    (get_messages limit offset from_ since q db).offset = max offset 0 := by
  constructor
  · show (if limit < 1 ∨ limit > 100 then (50 : Int) else limit) = _
    split_ifs <;> omega
  · show (if offset < 0 then (0 : Int) else offset) = max offset 0
    rw [max_def]
    split_ifs <;> omega

/-- C6: the items returned by GET /messages are sorted by ts ascending with
ties broken by ascending message_id. -/
theorem get_messages_ordered (limit offset : Int) (from_ since q : Option String)
    (db : List Message) :
    ((get_messages limit offset from_ since q db).data).Pairwise
      (fun a b => strLt a.ts b.ts = true ∨
        (a.ts = b.ts ∧ strLe a.message_id b.message_id = true)) := by
  unfold get_messages
  dsimp only
  rw [List.pairwise_map]
  refine List.Pairwise.sublist
    ((List.take_sublist _ _).trans (List.drop_sublist _ _)) ?_
  exact (List.sorted_insertionSort msgLeP _).imp
    (fun h => (msgLe_iff _ _).mp h)

/-- C5 counterexample: with q equal to a single underscore, the listing keeps
a message whose text is the letter a (the underscore acts as a LIKE wildcard),
although that text does not contain an underscore as a substring — so the q
filter is not plain case-insensitive substring containment. -/
theorem get_messages_q_wildcard_counterexample :
    (get_messages 50 0 none none (some "_") [exMsgText]).total = 1 ∧
    specCiSubstring "a" "_" = false := ⟨rfl, rfl⟩

/-- C5 (amended): each optional filter applies only when its supplied value
is non-empty (Python truthiness), so a present but empty from_ or q value
applies no filter at all — the last two conjuncts prove those requests equal
the unfiltered ones; when active, from_ keeps exactly the rows with that
from_msisdn, since keeps exactly those with ts at least since, and q keeps
exactly those whose non-null text matches the SQL LIKE pattern
percent-q-percent case-insensitively (percent and underscore in q act as
wildcards); the active filters compose conjunctively, total counts the
filtered set before limit and offset, and every returned item comes from a
stored row passing all active filters. -/
theorem get_messages_filter_composition (limit offset : Int)
    (from_ since q : Option String) (db : List Message) :
    (∀ m : Message, filterPred from_ since q m = true ↔
      ((∀ f, from_ = some f → f ≠ "" → m.from_msisdn = f) ∧
       (∀ s, since = some s → s ≠ "" → strLe s m.ts = true) ∧
       (∀ qs, q = some qs → qs ≠ "" → textIlike m.text qs = true))) ∧
    (get_messages limit offset from_ since q db).total
        = (db.filter (filterPred from_ since q)).length ∧
    (∀ r ∈ (get_messages limit offset from_ since q db).data,
      ∃ m, m ∈ db ∧ filterPred from_ since q m = true ∧ r = toResponse m) ∧
    get_messages limit offset (some "") since q db
        = get_messages limit offset none since q db ∧
    get_messages limit offset from_ since (some "") db
        = get_messages limit offset from_ since none db := by
  refine ⟨?_, ?_, ?_, rfl, rfl⟩
  · intro m
    have h1 := truthy_guard_iff from_ (fun f => m.from_msisdn == f)
    have h2 := truthy_guard_iff since (fun s => strLe s m.ts)
    have h3 := truthy_guard_iff q (fun qs => textIlike m.text qs)
    simp only [filterPred, Bool.and_eq_true, h1, h2, h3, beq_iff_eq, and_assoc]
  · show (appliedFilters from_ since q db).length = _
    rw [appliedFilters_eq]
  · intro r hr
    obtain ⟨m, hm, rfl⟩ := List.mem_map.mp hr
    have hm1 : m ∈ (appliedFilters from_ since q db).insertionSort msgLeP :=
      List.mem_of_mem_drop (List.mem_of_mem_take hm)
    have hm2 : m ∈ appliedFilters from_ since q db :=
      ((List.perm_insertionSort msgLeP _).mem_iff).mp hm1
    rw [appliedFilters_eq] at hm2
    obtain ⟨hmdb, hmp⟩ := List.mem_filter.mp hm2
    exact ⟨m, hmdb, hmp, rfl⟩

/-- C5 witness: the amended theorem applied to the wildcard query on the
one-row store. -/
theorem get_messages_filter_composition_witness :
    ∃ m, m ∈ [exMsgText] ∧ filterPred none none (some "_") m = true ∧
      toResponse exMsgText = toResponse m :=
  (get_messages_filter_composition 50 0 none none (some "_") [exMsgText]).2.2.1
    (toResponse exMsgText) (by decide)

/-- C9 counterexample: on the empty collector the export is the empty string —
no latency histogram (count line and bucket lines) is rendered, so the export
does not always contain a histogram. -/
theorem export_prometheus_empty_counterexample :
    exportLines MetricsCollector.empty = [] ∧
    export_prometheus MetricsCollector.empty = "" := ⟨rfl, rfl⟩

/-- C9 (amended): every counter is rendered as a name-labels-value line, and
as soon as at least one latency observation exists the export carries the
histogram: the observation count, and cumulative buckets for bounds 100, 500
and infinity, each counting all observations at most its bound, whence
bucket 100 is at most bucket 500, which is at most the count, and the
infinity bucket equals the count. -/
theorem export_prometheus_histogram (c : MetricsCollector)
    (hne : c.request_latencies ≠ []) :
    ("request_latency_ms_count " ++ toString c.request_latencies.length)
        ∈ exportLines c ∧
    ("request_latency_ms_bucket\x7ble=\"100\"\x7d " ++
        toString (c.request_latencies.countP (fun l => l ≤ 100)))
        ∈ exportLines c ∧
    ("request_latency_ms_bucket\x7ble=\"500\"\x7d " ++
        toString (c.request_latencies.countP (fun l => l ≤ 500)))
        ∈ exportLines c ∧
    ("request_latency_ms_bucket\x7ble=\"+Inf\"\x7d " ++
        toString c.request_latencies.length) ∈ exportLines c ∧
    c.request_latencies.countP (fun l => l ≤ 100)
        ≤ c.request_latencies.countP (fun l => l ≤ 500) ∧
    c.request_latencies.countP (fun l => l ≤ 500)
        ≤ c.request_latencies.length ∧
    (∀ kv ∈ c.http_requests_total,
      ("http_requests_total" ++ kv.1 ++ " " ++ toString kv.2) ∈ exportLines c) ∧
    (∀ kv ∈ c.webhook_requests_total,
      ("webhook_requests_total" ++ kv.1 ++ " " ++ toString kv.2)
          ∈ exportLines c) := by
  have hie : c.request_latencies.isEmpty = false := by
    cases h : c.request_latencies with
    | nil => exact absurd h hne
    | cons a l => simp [h]
  have hperm := List.perm_insertionSort (fun a b : Rat => a ≤ b)
    c.request_latencies
  have hlen : (c.request_latencies.insertionSort (fun a b => a ≤ b)).length
      = c.request_latencies.length := hperm.length_eq
  have h100 := hperm.countP_eq (fun l => decide (l ≤ 100))
  have h500 := hperm.countP_eq (fun l => decide (l ≤ 500))
  refine ⟨?_, ?_, ?_, ?_, ?_, ?_, ?_, ?_⟩
  · simp [exportLines, hie, hlen, List.mem_append]
  · simp [exportLines, hie, h100, List.mem_append]
  · simp [exportLines, hie, h500, List.mem_append]
  · simp [exportLines, hie, hlen, List.mem_append]
  · refine List.countP_mono_left ?_
    intro x _ hx
    simp only [decide_eq_true_eq] at hx ⊢
    exact le_trans hx (by norm_num)
  · exact List.countP_le_length _
  · intro kv hkv
    simp only [exportLines]
    exact List.mem_append_left _ (List.mem_append_left _
      (List.mem_map_of_mem _ hkv))
  · intro kv hkv
    simp only [exportLines]
    exact List.mem_append_left _ (List.mem_append_right _
      (List.mem_map_of_mem _ hkv))

/-- C9 witness: the amended theorem applied to a concrete collector with two
observations. -/
theorem export_prometheus_histogram_witness :
    ("request_latency_ms_count " ++ toString exCollector.request_latencies.length)
        ∈ exportLines exCollector :=
  (export_prometheus_histogram exCollector (by decide)).1

/-- C10 counterexample: with the secret unset, a request whose X-Signature
header is present but empty takes the falsy-header branch — the handler
returns 401 and does not raise, so carrying the header does not always crash
the handler. -/
theorem webhook_missing_secret_empty_header :
    (webhook (fun _ _ => "aa") (fun _ => none) none "now" 5
        ⟨some "", some "body", false⟩ ⟨[], MetricsCollector.empty⟩).1
      = .response 401 (.detail "invalid signature") ∧
    (webhook (fun _ _ => "aa") (fun _ => none) none "now" 5
        ⟨some "", some "body", false⟩ ⟨[], MetricsCollector.empty⟩).2.db = [] :=
  ⟨rfl, rfl⟩

/-- C10 (amended): when the secret is unset and the request carries a
non-empty X-Signature header with a readable body, the handler raises an
uncaught exception while computing the expected HMAC; it does not return 401
and leaves the store (and all state) unchanged. -/
theorem webhook_missing_secret_uncaught (hmacHex : String → String → String)
    (parseJson : String → Option MessageRequest) (nowIso : String)
    (latencyMs : Rat) (s raw : String) (fault : Bool) (st : AppState)
    (hs : s ≠ "") :
    (webhook hmacHex parseJson none nowIso latencyMs
        ⟨some s, some raw, fault⟩ st).1
      = .uncaught "AttributeError: NoneType object has no attribute encode" ∧
    (webhook hmacHex parseJson none nowIso latencyMs
        ⟨some s, some raw, fault⟩ st).2 = st := by
  have hx : pyTruthyOpt (some s) = true := by simp [pyTruthyOpt, hs]
  constructor <;> simp [webhook, hx]

/-- C10 witness: the amended theorem at a concrete request. -/
theorem webhook_missing_secret_uncaught_witness :
    (webhook (fun _ _ => "aa") (fun _ => none) none "now" 5
        ⟨some "x", some "body", false⟩ ⟨[], MetricsCollector.empty⟩).1
      = .uncaught "AttributeError: NoneType object has no attribute encode" :=
  (webhook_missing_secret_uncaught (fun _ _ => "aa") (fun _ => none) "now" 5
      "x" "body" false ⟨[], MetricsCollector.empty⟩ (by decide)).1

/-- C8 counterexample: the ReadBody failure path responds 400 but records no
latency observation (and no webhook-result metric), so not every terminal
stage emits a latency observation. -/
theorem webhook_readbody_no_latency :
    (webhook (fun _ _ => "aa") (fun _ => none) (some "sec") "now" 5
        ⟨some "aa", none, false⟩ ⟨[], MetricsCollector.empty⟩).1
      = .response 400 (.detail "Could not read request body") ∧
    (webhook (fun _ _ => "aa") (fun _ => none) (some "sec") "now" 5
        ⟨some "aa", none, false⟩
        ⟨[], MetricsCollector.empty⟩).2.metrics.request_latencies = [] ∧
    (webhook (fun _ _ => "aa") (fun _ => none) (some "sec") "now" 5
        ⟨some "aa", none, false⟩
        ⟨[], MetricsCollector.empty⟩).2.metrics.webhook_requests_total = [] :=
  ⟨rfl, rfl, rfl⟩

/-- C7: get_stats reports the row count, the number of distinct senders, at
most ten per-sender entries sorted by descending count with ties broken by
ascending sender string, correct per-sender counts, and the minimum and
maximum ts, both none exactly when the store is empty. -/
theorem get_stats_correct (db : List Message) :
    (get_stats db).total_messages = db.length ∧
    (get_stats db).senders_count = (db.map (fun m => m.from_msisdn)).toFinset.card ∧
    (get_stats db).messages_per_sender.length ≤ 10 ∧
    (get_stats db).messages_per_sender.Pairwise
      (fun a b => b.count < a.count ∨
        (a.count = b.count ∧ strLe a.from_msisdn b.from_msisdn = true)) ∧
    (∀ p ∈ (get_stats db).messages_per_sender,
      p.count = (db.filter (fun m => m.from_msisdn == p.from_msisdn)).length ∧
      p.from_msisdn ∈ db.map (fun m => m.from_msisdn)) ∧
    ((get_stats db).first_message_ts = none ↔ db = []) ∧
    ((get_stats db).last_message_ts = none ↔ db = []) ∧
    (∀ t, (get_stats db).first_message_ts = some t →
      (∃ m ∈ db, m.ts = t) ∧ ∀ m ∈ db, strLe t m.ts = true) ∧
    (∀ t, (get_stats db).last_message_ts = some t →
      (∃ m ∈ db, m.ts = t) ∧ ∀ m ∈ db, strLe m.ts t = true) := by
  refine ⟨rfl, (List.card_toFinset _).symm, ?_, ?_, ?_, ?_, ?_, ?_, ?_⟩
  · show ((topSenders db).map _).length ≤ 10
    rw [List.length_map]
    unfold topSenders
    dsimp only
    rw [List.length_take]
    omega
  · show List.Pairwise _ ((topSenders db).map _)
    rw [List.pairwise_map]
    unfold topSenders
    dsimp only
    refine List.Pairwise.sublist (List.take_sublist _ _) ?_
    exact (List.sorted_insertionSort senderOrdP _).imp
      (fun h => (senderOrd_iff _ _).mp h)
  · intro p hp
    obtain ⟨pr, hpr, rfl⟩ := List.mem_map.mp hp
    have h1 : pr ∈ (((db.map (fun m => m.from_msisdn)).dedup).map
        (fun s => (s, (db.filter (fun m => m.from_msisdn == s)).length))).insertionSort
          senderOrdP :=
      List.mem_of_mem_take hpr
    have h2 := (List.perm_insertionSort senderOrdP _).mem_iff.mp h1
    obtain ⟨s, hs, rfl⟩ := List.mem_map.mp h2
    exact ⟨rfl, List.mem_dedup.mp hs⟩
  · show sqlMinStr (db.map (fun m => m.ts)) = none ↔ db = []
    rw [sqlMinStr_eq_none_iff]
    constructor
    · intro h; simpa using h
    · intro h; simp [h]
  · show sqlMaxStr (db.map (fun m => m.ts)) = none ↔ db = []
    rw [sqlMaxStr_eq_none_iff]
    constructor
    · intro h; simpa using h
    · intro h; simp [h]
  · intro t ht
    obtain ⟨hmem, hle⟩ := sqlMinStr_spec ht
    constructor
    · obtain ⟨m, hm, hmt⟩ := List.mem_map.mp hmem
      exact ⟨m, hm, hmt⟩
    · intro m hm
      exact hle m.ts (List.mem_map_of_mem _ hm)
  · intro t ht
    obtain ⟨hmem, hle⟩ := sqlMaxStr_spec ht
    constructor
    · obtain ⟨m, hm, hmt⟩ := List.mem_map.mp hmem
      exact ⟨m, hm, hmt⟩
    · intro m hm
      exact hle m.ts (List.mem_map_of_mem _ hm)

/-- C7 witness: the stats theorem instantiated on a one-row store, reading off
the minimum timestamp. -/
theorem get_stats_correct_witness :
    (∃ m ∈ [exMsgText], m.ts = "2025-01-15T10:00:00Z") ∧
    ∀ m ∈ [exMsgText], strLe "2025-01-15T10:00:00Z" m.ts = true :=
  (get_stats_correct [exMsgText]).2.2.2.2.2.2.2.1 "2025-01-15T10:00:00Z" rfl

/-- C1: a second delivery of a valid, correctly signed payload whose
message_id is already stored is not an error: the handler answers 200 with
status ok, the store keeps exactly the one existing row unchanged, and the
outcome is counted as duplicate. -/
theorem webhook_duplicate_idempotent (hmacHex : String → String → String)
    (parseJson : String → Option MessageRequest)
    (secret raw sig nowIso : String) (latencyMs : Rat)
    (m : MessageRequest) (st : AppState)
    (hparse : parseJson raw = some m)
    (hvalid : validateMessageRequest m = .ok m)
    (hsig_ne : sig ≠ "")
    (hsig : sig = hmacHex secret raw)
    (hdup : (st.db.filter (fun r => r.message_id == m.message_id)).length = 1) :
    (webhook hmacHex parseJson (some secret) nowIso latencyMs
        ⟨some sig, some raw, false⟩ st).1 = .response 200 .statusOk ∧
    (webhook hmacHex parseJson (some secret) nowIso latencyMs
        ⟨some sig, some raw, false⟩ st).2.db = st.db ∧
    ((webhook hmacHex parseJson (some secret) nowIso latencyMs
        ⟨some sig, some raw, false⟩ st).2.db.filter
          (fun r => r.message_id == m.message_id)).length = 1 ∧
    lookupCount (webhook hmacHex parseJson (some secret) nowIso latencyMs
        ⟨some sig, some raw, false⟩ st).2.metrics.webhook_requests_total
        (webhookResultKey "duplicate")
      = lookupCount st.metrics.webhook_requests_total
          (webhookResultKey "duplicate") + 1 := by
  subst hsig
  have hx : pyTruthyOpt (some (hmacHex secret raw)) = true := by
    simp [pyTruthyOpt, hsig_ne]
  have hany : st.db.any (fun r => r.message_id == m.message_id) = true := by
    rw [List.any_eq_true]
    have hpos : 0 < (st.db.filter (fun r => r.message_id == m.message_id)).length := by
      omega
    obtain ⟨r, hr⟩ := List.exists_mem_of_length_pos hpos
    obtain ⟨hrdb, hrid⟩ := List.mem_filter.mp hr
    exact ⟨r, hrdb, hrid⟩
  refine ⟨?_, ?_, ?_, ?_⟩ <;>
    simp [webhook, hx, hparse, hvalid, hany, hdup, recordOutcome,
      record_latency, record_webhook_result, record_http_request,
      lookupCount_incrKey_self]

/-- C1 witness: the duplicate-delivery theorem at a concrete payload and a
store already holding a row with the same message_id. -/
theorem webhook_duplicate_idempotent_witness :
    (webhook (fun _ _ => "aa") (fun _ => some reqM1) (some "sec") "now" 5
        ⟨some "aa", some "body", false⟩ ⟨[rowM1], MetricsCollector.empty⟩).1
      = .response 200 .statusOk ∧
    (webhook (fun _ _ => "aa") (fun _ => some reqM1) (some "sec") "now" 5
        ⟨some "aa", some "body", false⟩ ⟨[rowM1], MetricsCollector.empty⟩).2.db
      = [rowM1] ∧
    ((webhook (fun _ _ => "aa") (fun _ => some reqM1) (some "sec") "now" 5
        ⟨some "aa", some "body", false⟩ ⟨[rowM1], MetricsCollector.empty⟩).2.db.filter
          (fun r => r.message_id == reqM1.message_id)).length = 1 ∧
    lookupCount (webhook (fun _ _ => "aa") (fun _ => some reqM1) (some "sec") "now" 5
        ⟨some "aa", some "body", false⟩
        ⟨[rowM1], MetricsCollector.empty⟩).2.metrics.webhook_requests_total
        (webhookResultKey "duplicate")
      = lookupCount MetricsCollector.empty.webhook_requests_total
          (webhookResultKey "duplicate") + 1 :=
  webhook_duplicate_idempotent (fun _ _ => "aa") (fun _ => some reqM1)
    "sec" "body" "aa" "now" 5 reqM1 ⟨[rowM1], MetricsCollector.empty⟩
    rfl rfl (by decide) rfl rfl

/-- C2: a request whose X-Signature header is absent, or differs from the
HMAC hex digest of the raw body under the configured secret, is answered 401
with no row stored; a request whose header equals that digest passes the
signature gate and reaches validation (its status is never 401 or 400). -/
theorem webhook_signature_gate (hmacHex : String → String → String)
    (parseJson : String → Option MessageRequest) (secret raw nowIso : String)
    (latencyMs : Rat) (fault : Bool) (xsig : Option String) (st : AppState) :
    (pyTruthyOpt xsig = false →
      (webhook hmacHex parseJson (some secret) nowIso latencyMs
          ⟨xsig, some raw, fault⟩ st).1
        = .response 401 (.detail "invalid signature") ∧
      (webhook hmacHex parseJson (some secret) nowIso latencyMs
          ⟨xsig, some raw, fault⟩ st).2.db = st.db) ∧
    (∀ s, xsig = some s → s ≠ "" → s ≠ hmacHex secret raw →
      (webhook hmacHex parseJson (some secret) nowIso latencyMs
          ⟨xsig, some raw, fault⟩ st).1
        = .response 401 (.detail "invalid signature") ∧
      (webhook hmacHex parseJson (some secret) nowIso latencyMs
          ⟨xsig, some raw, fault⟩ st).2.db = st.db) ∧
    (hmacHex secret raw ≠ "" →
      ∃ code b, (webhook hmacHex parseJson (some secret) nowIso latencyMs
          ⟨some (hmacHex secret raw), some raw, fault⟩ st).1
        = .response code b ∧ code ≠ 401 ∧ code ≠ 400) := by
  refine ⟨?_, ?_, ?_⟩
  · intro hx
    constructor <;> simp [webhook, hx]
  · intro s hs hne hneq
    subst hs
    have hx : pyTruthyOpt (some s) = true := by simp [pyTruthyOpt, hne]
    constructor <;> simp [webhook, hx, hneq]
  · intro hmne
    have hx : pyTruthyOpt (some (hmacHex secret raw)) = true := by
      simp [pyTruthyOpt, hmne]
    cases hp : parseJson raw with
    | none =>
      exact ⟨422, .detail "Expecting value",
        by simp [webhook, hx, hp], by decide, by decide⟩
    | some data =>
      cases hv : validateMessageRequest data with
      | error e =>
        exact ⟨422, .detail e, by simp [webhook, hx, hp, hv],
          by decide, by decide⟩
      | ok msg =>
        cases fault with
        | true =>
          exact ⟨500, .detail "Internal server error",
            by simp [webhook, hx, hp, hv], by decide, by decide⟩
        | false =>
          cases hany : st.db.any (fun r => r.message_id == msg.message_id) with
          | true =>
            exact ⟨200, .statusOk, by simp [webhook, hx, hp, hv, hany],
              by decide, by decide⟩
          | false =>
            exact ⟨200, .statusOk, by simp [webhook, hx, hp, hv, hany],
              by decide, by decide⟩

/-- C2 witness: a mismatched signature on a concrete request is rejected with
401 and the store stays empty. -/
theorem webhook_signature_gate_witness :
    (webhook (fun _ _ => "aa") (fun _ => none) (some "sec") "now" 5
        ⟨some "zz", some "body", false⟩ ⟨[], MetricsCollector.empty⟩).1
      = .response 401 (.detail "invalid signature") ∧
    (webhook (fun _ _ => "aa") (fun _ => none) (some "sec") "now" 5
        ⟨some "zz", some "body", false⟩ ⟨[], MetricsCollector.empty⟩).2.db
      = [] :=
  (webhook_signature_gate (fun _ _ => "aa") (fun _ => none) "sec" "body" "now" 5
      false (some "zz") ⟨[], MetricsCollector.empty⟩).2.1 "zz" rfl
    (by decide) (by decide)

/-- C3 counterexample: the validator accepts a from value carrying a trailing
newline, because Python's dollar anchor also matches just before a final
newline; that value is not in the language of the plus-digits pattern, so
acceptance is not exactly matching the documented pattern. -/
theorem validator_accepts_newline_counterexample :
    validateMessageRequest reqNl = .ok reqNl ∧ specE164Match "+123\n" = false :=
  ⟨rfl, rfl⟩

/-- C3 (amended): the validator accepts exactly when message_id is non-empty
after trimming, from and to match the plus-digits pattern under Python
re.match semantics (which also accepts one trailing newline), ts likewise
matches the timestamp pattern up to one trailing newline, and text is absent
or at most 4096 characters; any validation or parse failure yields 422 with
no stored row; text of length 4096 is accepted and 4097 rejected. -/
theorem payload_validation_spec :
    (∀ m : MessageRequest,
      validateMessageRequest m = .ok m ↔
        (pyStrip m.message_id ≠ "" ∧ pyAcceptE164 m.from_field ∧
         pyAcceptE164 m.to ∧ pyAcceptTs m.ts ∧
         (∀ t, m.text = some t → t.length ≤ 4096))) ∧
    (∀ (hmacHex : String → String → String)
        (parseJson : String → Option MessageRequest)
        (secret raw nowIso : String) (latencyMs : Rat) (fault : Bool)
        (st : AppState) (m : MessageRequest) (e : String),
      hmacHex secret raw ≠ "" →
      parseJson raw = some m → validateMessageRequest m = .error e →
      (webhook hmacHex parseJson (some secret) nowIso latencyMs
          ⟨some (hmacHex secret raw), some raw, fault⟩ st).1
        = .response 422 (.detail e) ∧
      (webhook hmacHex parseJson (some secret) nowIso latencyMs
          ⟨some (hmacHex secret raw), some raw, fault⟩ st).2.db = st.db) ∧
    (∀ (hmacHex : String → String → String)
        (parseJson : String → Option MessageRequest)
        (secret raw nowIso : String) (latencyMs : Rat) (fault : Bool)
        (st : AppState),
      hmacHex secret raw ≠ "" → parseJson raw = none →
      (webhook hmacHex parseJson (some secret) nowIso latencyMs
          ⟨some (hmacHex secret raw), some raw, fault⟩ st).1
        = .response 422 (.detail "Expecting value") ∧
      (webhook hmacHex parseJson (some secret) nowIso latencyMs
          ⟨some (hmacHex secret raw), some raw, fault⟩ st).2.db = st.db) ∧
    validateMessageRequest req4096 = .ok req4096 ∧
    validateMessageRequest req4097
      = .error "text must not exceed 4096 characters" ∧
    (repChar 4096).length = 4096 ∧ (repChar 4097).length = 4097 := by
  refine ⟨?_, ?_, ?_, ?_, ?_, repChar_length 4096, repChar_length 4097⟩
  · intro m
    rw [validate_ok_iff]
    constructor
    · rintro ⟨h1, h2, h3, h4, h5⟩
      refine ⟨fun hc => h1 (Or.inr hc),
        (pyDollarMatch_iff _ _).mp h2, (pyDollarMatch_iff _ _).mp h3,
        (pyDollarMatch_iff _ _).mp h4, ?_⟩
      intro t ht
      have h6 := h5 t ht
      by_cases he : t = ""
      · subst he
        decide
      · have h7 := not_and.mp h6 he
        omega
    · rintro ⟨h1, h2, h3, h4, h5⟩
      refine ⟨?_, (pyDollarMatch_iff _ _).mpr h2, (pyDollarMatch_iff _ _).mpr h3,
        (pyDollarMatch_iff _ _).mpr h4, ?_⟩
      · rintro (hc | hc)
        · refine h1 ?_
          rw [hc]
          rfl
        · exact h1 hc
      · intro t ht
        have h6 := h5 t ht
        intro hcon
        omega
  · intro hmacHex parseJson secret raw nowIso latencyMs fault st m e hmne hp hv
    have hx : pyTruthyOpt (some (hmacHex secret raw)) = true := by
      simp [pyTruthyOpt, hmne]
    constructor <;> simp [webhook, hx, hp, hv, recordOutcome, record_latency,
      record_webhook_result, record_http_request]
  · intro hmacHex parseJson secret raw nowIso latencyMs fault st hmne hp
    have hx : pyTruthyOpt (some (hmacHex secret raw)) = true := by
      simp [pyTruthyOpt, hmne]
    constructor <;> simp [webhook, hx, hp, recordOutcome, record_latency,
      record_webhook_result, record_http_request]
  · rw [validate_ok_iff]
    refine ⟨by decide, by decide, by decide, by decide, ?_⟩
    intro t ht
    have ht2 : some (repChar 4096) = some t := ht
    obtain rfl : repChar 4096 = t := by injection ht2
    rintro ⟨hne, hlen⟩
    rw [repChar_length] at hlen
    omega
  · refine validate_text_too_long req4097 (repChar 4097) (by decide) (by decide)
      (by decide) (by decide) rfl ?_ ?_
    · intro h
      have h0 := congrArg String.length h
      rw [repChar_length] at h0
      simp [String.length] at h0
    · rw [repChar_length]
      omega

/-- C3 witness: an invalid from field (digits without the plus sign) is
rejected with 422 and nothing is stored. -/
theorem payload_validation_spec_witness :
    (webhook (fun _ _ => "aa") (fun _ => some reqBadFrom) (some "sec") "now" 5
        ⟨some "aa", some "body", false⟩ ⟨[], MetricsCollector.empty⟩).1
      = .response 422
          (.detail "from must be in E.164 format (e.g. +919876543210)") ∧
    (webhook (fun _ _ => "aa") (fun _ => some reqBadFrom) (some "sec") "now" 5
        ⟨some "aa", some "body", false⟩ ⟨[], MetricsCollector.empty⟩).2.db
      = [] :=
  payload_validation_spec.2.1 (fun _ _ => "aa") (fun _ => some reqBadFrom)
    "sec" "body" "now" 5 false ⟨[], MetricsCollector.empty⟩ reqBadFrom
    "from must be in E.164 format (e.g. +919876543210)" (by decide) rfl rfl

/-- C8 (amended): every terminal HTTP response of the handler increments one
HTTP-status counter; except for the ReadBody failure, it also appends exactly
one latency observation and increments exactly one webhook-result counter,
while the ReadBody failure emits only the HTTP-status metric; an uncaught
exception leaves all state unchanged. -/
theorem webhook_metric_emissions (hmacHex : String → String → String)
    (parseJson : String → Option MessageRequest) (secret : Option String)
    (nowIso : String) (latencyMs : Rat) (inp : WebhookInput) (st : AppState) :
    (∀ e, (webhook hmacHex parseJson secret nowIso latencyMs inp st).1
        = .uncaught e →
      (webhook hmacHex parseJson secret nowIso latencyMs inp st).2 = st) ∧
    (∀ code b, (webhook hmacHex parseJson secret nowIso latencyMs inp st).1
        = .response code b →
      counterTotal (webhook hmacHex parseJson secret nowIso latencyMs
            inp st).2.metrics.http_requests_total
          = counterTotal st.metrics.http_requests_total + 1 ∧
      (webhook hmacHex parseJson secret nowIso latencyMs
            inp st).2.metrics.request_latencies.length
          = st.metrics.request_latencies.length
              + (if inp.bodyResult = none then 0 else 1) ∧
      counterTotal (webhook hmacHex parseJson secret nowIso latencyMs
            inp st).2.metrics.webhook_requests_total
          = counterTotal st.metrics.webhook_requests_total
              + (if inp.bodyResult = none then 0 else 1)) := by
  obtain ⟨xsig, body, fault⟩ := inp
  cases body with
  | none =>
    refine ⟨?_, ?_⟩
    · intro e he
      simp [webhook] at he
    · intro code b _
      refine ⟨?_, ?_, ?_⟩ <;>
        simp [webhook, record_http_request, counterTotal_incrKey]
  | some raw =>
    cases hx : pyTruthyOpt xsig with
    | false =>
      refine ⟨?_, ?_⟩
      · intro e he
        simp [webhook, hx] at he
      · intro code b _
        refine ⟨?_, ?_, ?_⟩ <;>
          simp [webhook, hx, recordOutcome, record_latency,
            record_webhook_result, record_http_request, counterTotal_incrKey]
    | true =>
      cases secret with
      | none =>
        refine ⟨?_, ?_⟩
        · intro e _
          simp [webhook, hx]
        · intro code b hcb
          simp [webhook, hx] at hcb
      | some sec =>
        by_cases he : (xsig.getD "" = hmacHex sec raw)
        · cases hp : parseJson raw with
          | none =>
            refine ⟨?_, ?_⟩
            · intro e h0
              simp [webhook, hx, he, hp] at h0
            · intro code b _
              refine ⟨?_, ?_, ?_⟩ <;>
                simp [webhook, hx, he, hp, recordOutcome, record_latency,
                  record_webhook_result, record_http_request, counterTotal_incrKey]
          | some data =>
            cases hv : validateMessageRequest data with
            | error e2 =>
              refine ⟨?_, ?_⟩
              · intro e h0
                simp [webhook, hx, he, hp, hv] at h0
              · intro code b _
                refine ⟨?_, ?_, ?_⟩ <;>
                  simp [webhook, hx, he, hp, hv, recordOutcome, record_latency,
                    record_webhook_result, record_http_request, counterTotal_incrKey]
            | ok msg =>
              cases fault with
              | true =>
                refine ⟨?_, ?_⟩
                · intro e h0
                  simp [webhook, hx, he, hp, hv] at h0
                · intro code b _
                  refine ⟨?_, ?_, ?_⟩ <;>
                    simp [webhook, hx, he, hp, hv, recordOutcome, record_latency,
                      record_webhook_result, record_http_request, counterTotal_incrKey]
              | false =>
                cases hany : st.db.any (fun r => r.message_id == msg.message_id) with
                | true =>
                  refine ⟨?_, ?_⟩
                  · intro e h0
                    simp [webhook, hx, he, hp, hv, hany] at h0
                  · intro code b _
                    refine ⟨?_, ?_, ?_⟩ <;>
                      simp [webhook, hx, he, hp, hv, hany, recordOutcome,
                        record_latency, record_webhook_result,
                        record_http_request, counterTotal_incrKey]
                | false =>
                  refine ⟨?_, ?_⟩
                  · intro e h0
                    simp [webhook, hx, he, hp, hv, hany] at h0
                  · intro code b _
                    refine ⟨?_, ?_, ?_⟩ <;>
                      simp [webhook, hx, he, hp, hv, hany, recordOutcome,
                        record_latency, record_webhook_result,
                        record_http_request, counterTotal_incrKey]
        · refine ⟨?_, ?_⟩
          · intro e h0
            simp [webhook, hx, he] at h0
          · intro code b _
            refine ⟨?_, ?_, ?_⟩ <;>
              simp [webhook, hx, he, recordOutcome, record_latency,
                record_webhook_result, record_http_request, counterTotal_incrKey]

/-- C8 witness: the amended theorem applied to the ReadBody failure, reading
off the single HTTP-status increment. -/
theorem webhook_metric_emissions_witness :
    counterTotal (webhook (fun _ _ => "aa") (fun _ => none) (some "sec") "now" 5
        ⟨some "aa", none, false⟩
        ⟨[], MetricsCollector.empty⟩).2.metrics.http_requests_total
      = counterTotal MetricsCollector.empty.http_requests_total + 1 :=
  ((webhook_metric_emissions (fun _ _ => "aa") (fun _ => none) (some "sec")
      "now" 5 ⟨some "aa", none, false⟩ ⟨[], MetricsCollector.empty⟩).2 400
      (.detail "Could not read request body") rfl).1

end App
